import Mathlib

/-!
Verification of the pr-reviewer service (Go) against its specification.

The Go program is shallowly embedded: the PostgreSQL state is a `DB`
structure, each repository method (`internal/repo/repo.go`) is a pure
function from `DB` to `Except RepoError (result × DB)` mirroring its SQL
statement by statement (including the constraint checks PostgreSQL would
perform: primary keys, foreign keys, the CHECK on `slot`, the
merge-freeze trigger of the init migration), and each service method
(`internal/service/service.go`) composes them exactly as the Go code
does.  The random source `*rand.Rand` is modelled as a function
`permGen : Nat → List Nat` standing for `rng.Perm`.
-/

/-- Codes of `api.ErrorResponseErrorCode`: the wire-level error codes. -/
inductive ErrorCode where
  | TEAMEXISTS
  | NOTFOUND
  | PREXISTS
  | PRMERGED
  | NOTASSIGNED
  | NOCANDIDATE
  | BADREQUEST
  | INTERNALERROR
deriving DecidableEq, Repr

/-- Statuses of `api.PullRequestStatus`: OPEN or MERGED (the DB CHECK admits only these). -/
inductive PRStatus where
  | OPEN
  | MERGED
deriving DecidableEq, Repr

/-- A row of the `users` table / `api.User`. -/
structure User where
  userId : String
  username : String
  teamName : String
  isActive : Bool
deriving DecidableEq, Repr

/-- Mirror of `api.TeamMember`: a member as sent in a team-add request / returned in a team. -/
structure TeamMember where
  userId : String
  username : String
  isActive : Bool
deriving DecidableEq, Repr

/-- Mirror of `api.Team`. -/
structure Team where
  teamName : String
  members : List TeamMember
deriving DecidableEq, Repr

/-- A row of the `pull_requests` table.  Timestamps are abstract `Nat` ticks. -/
structure PRRow where
  pullRequestId : String
  pullRequestName : String
  authorId : String
  status : PRStatus
  createdAt : Nat
  mergedAt : Option Nat
deriving DecidableEq, Repr

/-- A row of the `pr_reviewers` table. -/
structure RevRow where
  prId : String
  slot : Nat
  reviewerId : String
deriving DecidableEq, Repr

/-- The database state: the four tables of the init migration, plus the
value `now()` would return (timestamps are abstract ticks). -/
structure DB where
  teams : List String
  users : List User
  prs : List PRRow
  reviewers : List RevRow
  now : Nat
deriving DecidableEq, Repr

/-- Mirror of `api.PullRequest` as loaded by `loadPullRequestTx`. -/
structure PullRequest where
  pullRequestId : String
  pullRequestName : String
  authorId : String
  status : PRStatus
  assignedReviewers : List String
  createdAt : Option Nat
  mergedAt : Option Nat
deriving DecidableEq, Repr

/-- Errors a repository call can produce: the sentinel errors of
`internal/repo/repo.go` plus `internal msg` for any raw wrapped error
(`fmt.Errorf`), in particular a PostgreSQL constraint violation. -/
inductive RepoError where
  | notFound
  | teamExists
  | pullRequestExists
  | reviewerNotFound
  | internal (msg : String)
deriving DecidableEq, Repr

/-- A service-level failure: either a typed `*service.Error` carrying an
`api` code, or a raw error passed through untranslated. -/
inductive SvcErr where
  | svc (code : ErrorCode) (msg : String)
  | raw (e : RepoError)
deriving DecidableEq, Repr

deriving instance DecidableEq for Except

/-- The query `SELECT ... FROM users WHERE user_id = $1` (via the PK there is at most one row). -/
def findUser (db : DB) (id : String) : Option User :=
  db.users.find? (fun u => u.userId == id)

/-- Mirror of `Repo.GetUser`. -/
def Repo.getUser (db : DB) (id : String) : Except RepoError User :=
  match findUser db id with
  | some u => .ok u
  | none => .error .notFound

/-- Mirror of `Repo.SetUserActive`: `UPDATE users SET is_active = $2 WHERE user_id = $1
RETURNING ...`; zero rows updated means `ErrNotFound`. -/
def Repo.setUserActive (db : DB) (id : String) (isActive : Bool) :
    Except RepoError (User × DB) :=
  match findUser db id with
  | none => .error .notFound
  | some u =>
      .ok ({ u with isActive := isActive },
        { db with users := db.users.map (fun v =>
            if v.userId == id then { v with isActive := isActive } else v) })

/-- Mirror of `Repo.ListActiveUsersInTeam`: `SELECT ... WHERE team_name = $1 AND is_active`. -/
def Repo.listActiveUsersInTeam (db : DB) (teamName : String) : List User :=
  db.users.filter (fun u => u.teamName == teamName && u.isActive)

/-- Mirror of `Repo.PullRequestExists`. -/
def Repo.pullRequestExists (db : DB) (id : String) : Bool :=
  db.prs.any (fun p => p.pullRequestId == id)

/-- Insertion sort step for `ORDER BY slot`. -/
def insertBySlot (x : RevRow) : List RevRow → List RevRow
  | [] => [x]
  | y :: ys => if x.slot ≤ y.slot then x :: y :: ys else y :: insertBySlot x ys

/-- The sort `ORDER BY slot` on the reviewer rows of one PR. -/
def sortBySlot : List RevRow → List RevRow
  | [] => []
  | x :: xs => insertBySlot x (sortBySlot xs)

/-- The reviewer rows of one PR, in slot order. -/
def prReviewerRows (db : DB) (prID : String) : List RevRow :=
  sortBySlot (db.reviewers.filter (fun r => r.prId == prID))

/-- Mirror of `loadPullRequestTx`: load the PR row and its reviewers ordered by slot. -/
def loadPullRequestTx (db : DB) (prID : String) : Except RepoError PullRequest :=
  match db.prs.find? (fun p => p.pullRequestId == prID) with
  | none => .error .notFound
  | some p =>
      .ok { pullRequestId := p.pullRequestId
            pullRequestName := p.pullRequestName
            authorId := p.authorId
            status := p.status
            assignedReviewers := (prReviewerRows db prID).map (·.reviewerId)
            createdAt := some p.createdAt
            mergedAt := p.mergedAt }

/-- Mirror of `Repo.GetPullRequest` (a read-only transaction around `loadPullRequestTx`). -/
def Repo.getPullRequest (db : DB) (prID : String) : Except RepoError PullRequest :=
  loadPullRequestTx db prID

/-- The condition the trigger `prevent_reviewers_change_on_merged` tests:
the owning PR exists and has status MERGED. -/
def prIsMerged (db : DB) (prID : String) : Bool :=
  match db.prs.find? (fun p => p.pullRequestId == prID) with
  | some p => p.status == .MERGED
  | none => false

/-- The reviewer-insert loop of `Repo.CreatePullRequest`: each row insert is
subject to the CHECK on `slot`, the reviewer foreign key, the
`(pr_id, reviewer_id)` uniqueness, the `(pr_id, slot)` primary key and the
merge-freeze trigger; a violation is a raw wrapped error. -/
def insertReviewerRows (db : DB) (prID : String) : List String → Nat → Except RepoError DB
  | [], _ => .ok db
  | rid :: rest, slot =>
      if slot ≠ 1 ∧ slot ≠ 2 then .error (.internal "insert reviewer")
      else if ¬ db.users.any (fun u => u.userId == rid) then
        .error (.internal "insert reviewer")
      else if db.reviewers.any (fun r => r.prId == prID && r.reviewerId == rid) then
        .error (.internal "insert reviewer")
      else if db.reviewers.any (fun r => r.prId == prID && r.slot == slot) then
        .error (.internal "insert reviewer")
      else if prIsMerged db prID then .error (.internal "insert reviewer")
      else
        insertReviewerRows
          { db with reviewers := db.reviewers ++ [⟨prID, slot, rid⟩] } prID rest (slot + 1)

/-- Mirror of `Repo.CreatePullRequest`: insert the PR row (primary key and author
foreign key enforced by PostgreSQL, surfaced as raw wrapped errors), insert
the reviewer rows, reload, commit.  Any error rolls the transaction back,
so no new state is returned on failure. -/
def Repo.createPullRequest (db : DB) (prID prName authorID : String)
    (reviewerIDs : List String) : Except RepoError (PullRequest × DB) :=
  if db.prs.any (fun p => p.pullRequestId == prID) then .error (.internal "insert pr")
  else if ¬ db.users.any (fun u => u.userId == authorID) then
    .error (.internal "insert pr")
  else
    match insertReviewerRows
        { db with prs := db.prs ++ [⟨prID, prName, authorID, .OPEN, db.now, none⟩] }
        prID reviewerIDs 1 with
    | .error e => .error e
    | .ok db2 =>
        match loadPullRequestTx db2 prID with
        | .error e => .error e
        | .ok pr => .ok (pr, db2)

/-- Mirror of `Repo.MarkPullRequestMerged`: `UPDATE pull_requests SET status = MERGED,
merged_at = COALESCE(merged_at, now()) WHERE pull_request_id = $1`, then
reload inside the same transaction. -/
def Repo.markPullRequestMerged (db : DB) (prID : String) :
    Except RepoError (PullRequest × DB) :=
  let db2 : DB :=
    { db with prs := db.prs.map (fun p =>
        if p.pullRequestId == prID then
          { p with status := .MERGED, mergedAt := some (p.mergedAt.getD db.now) }
        else p) }
  match loadPullRequestTx db2 prID with
  | .error e => .error e
  | .ok pr => .ok (pr, db2)

/-- Mirror of `Repo.ReplaceReviewer`: `UPDATE pr_reviewers SET reviewer_id = $3 WHERE
pr_id = $1 AND reviewer_id = $2`.  If a row matches, the merge-freeze
trigger, the reviewer foreign key and the `(pr_id, reviewer_id)` uniqueness
apply (raw wrapped error on violation); zero rows affected is
`ErrReviewerNotFound`. -/
def Repo.replaceReviewer (db : DB) (prID oldUserID newUserID : String) :
    Except RepoError DB :=
  if ¬ db.reviewers.any (fun r => r.prId == prID && r.reviewerId == oldUserID) then
    .error .reviewerNotFound
  else if prIsMerged db prID then .error (.internal "update reviewer")
  else if ¬ db.users.any (fun u => u.userId == newUserID) then
    .error (.internal "update reviewer")
  else if newUserID ≠ oldUserID ∧
      db.reviewers.any (fun r => r.prId == prID && r.reviewerId == newUserID) then
    .error (.internal "update reviewer")
  else
    .ok { db with reviewers := db.reviewers.map (fun r =>
        if r.prId == prID && r.reviewerId == oldUserID then
          { r with reviewerId := newUserID }
        else r) }

/-- The `DO UPDATE SET username = ..., team_name = ..., is_active = ...`
clause of the member upsert, applied to one row. -/
def applyMember (teamName : String) (m : TeamMember) (u : User) : User :=
  if u.userId == m.userId then
    { u with username := m.username, teamName := teamName, isActive := m.isActive }
  else u

/-- One `ON CONFLICT (user_id) DO UPDATE` upsert of the member loop in
`Repo.CreateTeamWithMembers`. -/
def upsertUser (db : DB) (teamName : String) (m : TeamMember) : DB :=
  if db.users.any (fun u => u.userId == m.userId) then
    { db with users := db.users.map (applyMember teamName m) }
  else
    { db with users := db.users ++
        [⟨m.userId, m.username, teamName, m.isActive⟩] }

/-- Insertion sort step for `ORDER BY user_id` on team members. -/
def insertById (x : User) : List User → List User
  | [] => [x]
  | y :: ys => if x.userId ≤ y.userId then x :: y :: ys else y :: insertById x ys

/-- The sort `ORDER BY user_id`. -/
def sortById : List User → List User
  | [] => []
  | x :: xs => insertById x (sortById xs)

/-- Mirror of `loadTeamTx`: the team's members ordered by user id. -/
def loadTeamTx (db : DB) (teamName : String) : Team :=
  { teamName := teamName
    members := (sortById (db.users.filter (fun u => u.teamName == teamName))).map (fun u =>
      ⟨u.userId, u.username, u.isActive⟩) }

/-- Mirror of `Repo.CreateTeamWithMembers`: fail `ErrTeamExists` if the team name is
taken, else insert the team row, upsert every member, reload, commit. -/
def Repo.createTeamWithMembers (db : DB) (team : Team) : Except RepoError (Team × DB) :=
  if db.teams.any (fun t => t == team.teamName) then .error .teamExists
  else
    let db2 := team.members.foldl (fun d m => upsertUser d team.teamName m)
      { db with teams := db.teams ++ [team.teamName] }
    .ok (loadTeamTx db2 team.teamName, db2)

/-- Mirror of `pickRandom`: a straight copy when the pool fits, else the items at the
first `mx` indices of `rng.Perm(len(items))` (the random source, modelled
as `permGen`, is consulted only in that second branch). -/
def pickRandom (permGen : Nat → List Nat) (items : List String) (mx : Nat) :
    List String :=
  if items.length ≤ mx then items
  else (List.range mx).map (fun i => items.getD ((permGen items.length).getD i 0) "")

/-- Mirror of `Service.CreateTeam`. -/
def Service.createTeam (db : DB) (team : Team) : Except SvcErr (Team × DB) :=
  match Repo.createTeamWithMembers db team with
  | .error .teamExists => .error (.svc .TEAMEXISTS "team already exists")
  | .error e => .error (.raw e)
  | .ok r => .ok r

/-- Mirror of `Service.SetUserActive`. -/
def Service.setUserActive (db : DB) (userID : String) (isActive : Bool) :
    Except SvcErr (User × DB) :=
  match Repo.setUserActive db userID isActive with
  | .error .notFound => .error (.svc .NOTFOUND "user not found")
  | .error e => .error (.raw e)
  | .ok r => .ok r

/-- Mirror of `Service.CreatePullRequest`: duplicate-id pre-check, author lookup,
candidate pool = active team users minus the author, pick up to two
reviewers, persist. -/
def Service.createPullRequest (db : DB) (permGen : Nat → List Nat)
    (id name authorID : String) : Except SvcErr (PullRequest × DB) :=
  if Repo.pullRequestExists db id then
    .error (.svc .PREXISTS "pull request already exists")
  else
    match Repo.getUser db authorID with
    | .error .notFound => .error (.svc .NOTFOUND "author not found")
    | .error e => .error (.raw e)
    | .ok author =>
        let users := Repo.listActiveUsersInTeam db author.teamName
        let candidates := (users.filter (fun u => u.userId != author.userId)).map
          (·.userId)
        let reviewers := pickRandom permGen candidates 2
        match Repo.createPullRequest db id name authorID reviewers with
        | .error e => .error (.raw e)
        | .ok r => .ok r

/-- Mirror of `Service.MergePullRequest`: load; if already MERGED return the loaded
state unchanged; else mark merged. -/
def Service.mergePullRequest (db : DB) (prID : String) :
    Except SvcErr (PullRequest × DB) :=
  match Repo.getPullRequest db prID with
  | .error .notFound => .error (.svc .NOTFOUND "pull request not found")
  | .error e => .error (.raw e)
  | .ok pr =>
      if pr.status = .MERGED then .ok (pr, db)
      else
        match Repo.markPullRequestMerged db prID with
        | .error e => .error (.raw e)
        | .ok r => .ok r

/-- The candidate pool of `Service.ReassignReviewer`: active users of the
departing reviewer's team, minus the exclusion set
{author} ∪ {oldUserID} ∪ assigned reviewers (the `exclude` map in the Go
code). -/
def reassignCandidates (db : DB) (pr : PullRequest) (oldUserID : String)
    (oldUser : User) : List String :=
  ((Repo.listActiveUsersInTeam db oldUser.teamName).filter
    (fun u => ¬ (pr.authorId :: oldUserID :: pr.assignedReviewers).contains
      u.userId)).map (·.userId)

/-- Mirror of `Service.ReassignReviewer`: merged-check, assigned-check, departing
reviewer lookup, candidate pool = active users of the departing reviewer's
team minus {author} ∪ {old} ∪ assigned reviewers, pick one, CAS-replace,
reload. -/
def Service.reassignReviewer (db : DB) (permGen : Nat → List Nat)
    (prID oldUserID : String) : Except SvcErr (PullRequest × String × DB) :=
  match Repo.getPullRequest db prID with
  | .error .notFound => .error (.svc .NOTFOUND "pull request not found")
  | .error e => .error (.raw e)
  | .ok pr =>
      if pr.status = .MERGED then
        .error (.svc .PRMERGED "cannot reassign on merged PR")
      else if ¬ pr.assignedReviewers.contains oldUserID then
        .error (.svc .NOTASSIGNED "reviewer is not assigned to this PR")
      else
        match Repo.getUser db oldUserID with
        | .error .notFound => .error (.svc .NOTFOUND "reviewer not found")
        | .error e => .error (.raw e)
        | .ok oldUser =>
            let candidates := reassignCandidates db pr oldUserID oldUser
            if candidates.length = 0 then
              .error (.svc .NOCANDIDATE "no active replacement candidate in team")
            else
              let newID := (pickRandom permGen candidates 1).headD ""
              match Repo.replaceReviewer db prID oldUserID newID with
              | .error .reviewerNotFound =>
                  .error (.svc .NOTASSIGNED "reviewer is not assigned to this PR")
              | .error e => .error (.raw e)
              | .ok db2 =>
                  match Repo.getPullRequest db2 prID with
                  | .error e => .error (.raw e)
                  | .ok updated => .ok (updated, newID, db2)

/-- Mirror of `statusFromCode` in the handlers package. -/
def statusFromCode : ErrorCode → Nat
  | .TEAMEXISTS => 400
  | .NOTFOUND => 404
  | .PREXISTS => 409
  | .PRMERGED => 409
  | .NOTASSIGNED => 409
  | .NOCANDIDATE => 409
  | _ => 500

/-- Mirror of `writeServiceError`: a typed `*service.Error` goes through
`statusFromCode`; any other error is a 500 with `INTERNAL_ERROR`. -/
def writeServiceErrorStatus : SvcErr → Nat
  | .svc c _ => statusFromCode c
  | .raw _ => 500

/-- The reviewer rows the insert loop of `Repo.CreatePullRequest` produces:
slots are assigned in list order starting from `slot`. -/
def revRowsFrom (prID : String) : Nat → List String → List RevRow
  | _, [] => []
  | slot, rid :: rest => ⟨prID, slot, rid⟩ :: revRowsFrom prID (slot + 1) rest

/-- The identity permutation generator, standing for one possible draw of
`rng.Perm`. -/
def permId : Nat → List Nat := fun n => List.range n

/-- A four-member team, as in the repository's integration test. -/
def baseUsers : List User :=
  [⟨"a", "Alice", "t", true⟩, ⟨"u2", "Bob", "t", true⟩,
   ⟨"u3", "Charlie", "t", true⟩, ⟨"u4", "Dora", "t", true⟩]

/-- A database with the team but no pull request yet. -/
def dbNoPR : DB := ⟨["t"], baseUsers, [], [], 10⟩

/-- A database with one OPEN pull request by "a", reviewers "u2", "u3". -/
def dbOpen : DB :=
  ⟨["t"], baseUsers, [⟨"pr1", "PR", "a", .OPEN, 0, none⟩],
   [⟨"pr1", 1, "u2"⟩, ⟨"pr1", 2, "u3"⟩], 10⟩

/-- The same database after the pull request was merged at tick 5. -/
def dbMerged : DB :=
  ⟨["t"], baseUsers, [⟨"pr1", "PR", "a", .MERGED, 0, some 5⟩],
   [⟨"pr1", 1, "u2"⟩, ⟨"pr1", 2, "u3"⟩], 10⟩

/-- The loaded view of the OPEN pull request of `dbOpen`. -/
def prOpen : PullRequest := ⟨"pr1", "PR", "a", .OPEN, ["u2", "u3"], some 0, none⟩

/-- The loaded view of the MERGED pull request of `dbMerged`. -/
def prMerged : PullRequest :=
  ⟨"pr1", "PR", "a", .MERGED, ["u2", "u3"], some 0, some 5⟩

/-- State of `dbOpen` after its pull request is merged at tick 10 (= `dbOpen.now`). -/
def dbOpenMerged : DB :=
  ⟨["t"], baseUsers, [⟨"pr1", "PR", "a", .MERGED, 0, some 10⟩],
   [⟨"pr1", 1, "u2"⟩, ⟨"pr1", 2, "u3"⟩], 10⟩

/-- The loaded view of the pull request of `dbOpenMerged`. -/
def prOpenMerged : PullRequest :=
  ⟨"pr1", "PR", "a", .MERGED, ["u2", "u3"], some 0, some 10⟩

/-- A team-add request for a new team "nt" listing the already-existing
user "u2" (who currently belongs to team "t"). -/
def teamNT : Team := ⟨"nt", [⟨"u2", "Bobby", false⟩]⟩

/-- Inversion of a successful pull-request load: the PR row was found and
the result is assembled from it. -/
theorem loadPullRequestTx_ok_inv (db : DB) (prID : String) (pr : PullRequest)
    (h : loadPullRequestTx db prID = .ok pr) :
    ∃ p, db.prs.find? (fun q => q.pullRequestId == prID) = some p ∧
      pr = ⟨p.pullRequestId, p.pullRequestName, p.authorId, p.status,
        (prReviewerRows db prID).map (·.reviewerId), some p.createdAt, p.mergedAt⟩ := by
  unfold loadPullRequestTx at h
  cases hf : db.prs.find? (fun q => q.pullRequestId == prID) with
  | none => rw [hf] at h; exact absurd h (by simp)
  | some p =>
      rw [hf] at h
      refine ⟨p, rfl, ?_⟩
      injection h with h
      exact h.symm

/-- Loading a pull request only reads the `pull_requests` and
`pr_reviewers` tables. -/
theorem loadPullRequestTx_congr (db db2 : DB) (prID : String)
    (h1 : db2.prs = db.prs) (h2 : db2.reviewers = db.reviewers) :
    loadPullRequestTx db2 prID = loadPullRequestTx db prID := by
  unfold loadPullRequestTx prReviewerRows
  rw [h1, h2]

/-- Any PR row found after the merge update of `Repo.MarkPullRequestMerged`
under the id predicate has status MERGED. -/
theorem find?_merge_update_status (prs : List PRRow) (prID : String) (now : Nat)
    (p : PRRow)
    (h : (prs.map (fun q => if q.pullRequestId == prID then
        { q with status := .MERGED, mergedAt := some (q.mergedAt.getD now) }
      else q)).find? (fun q => q.pullRequestId == prID) = some p) :
    p.status = .MERGED := by
  have hmem := List.mem_of_find?_eq_some h
  have hpred := List.find?_some h
  rcases List.mem_map.mp hmem with ⟨q, hq, hfq⟩
  by_cases hc : (q.pullRequestId == prID) = true
  · simp only [hc, if_true] at hfq
    rw [← hfq]
  · simp only [hc, if_false, Bool.false_eq_true] at hfq
    rw [← hfq] at hpred
    exact absurd hpred hc

/-- C1: merging is idempotent.  If the PR loads as MERGED, the service
returns the loaded state and leaves the database untouched (in particular
`merged_at` keeps its value); and after any successful merge, merging again
returns exactly the same pull request and state, so `merged_at` is the same
both times. -/
theorem C1_merge_idempotent (db : DB) (prID : String) (pr : PullRequest)
    (hload : Repo.getPullRequest db prID = .ok pr) :
    (pr.status = .MERGED → Service.mergePullRequest db prID = .ok (pr, db)) ∧
    (∀ pr1 db1, Service.mergePullRequest db prID = .ok (pr1, db1) →
      Service.mergePullRequest db1 prID = .ok (pr1, db1)) := by
  constructor
  · intro hm
    unfold Service.mergePullRequest
    rw [hload]
    simp [hm]
  · intro pr1 db1 h1
    unfold Service.mergePullRequest at h1
    rw [hload] at h1
    replace h1 : (if pr.status = .MERGED then Except.ok (pr, db) else
        match Repo.markPullRequestMerged db prID with
        | Except.error e => Except.error (SvcErr.raw e)
        | Except.ok r => Except.ok r) = Except.ok (pr1, db1) := h1
    by_cases hm : pr.status = .MERGED
    · rw [if_pos hm] at h1
      injection h1 with h1
      rw [Prod.mk.injEq] at h1
      obtain ⟨hp, hd⟩ := h1
      subst hp; subst hd
      unfold Service.mergePullRequest
      rw [hload]
      simp [hm]
    · rw [if_neg hm] at h1
      simp only [Repo.markPullRequestMerged] at h1
      cases hl : loadPullRequestTx
          { db with prs := db.prs.map (fun p =>
              if p.pullRequestId == prID then
                { p with status := .MERGED, mergedAt := some (p.mergedAt.getD db.now) }
              else p) } prID with
      | error e => rw [hl] at h1; simp at h1
      | ok pr2 =>
          rw [hl] at h1
          simp only [Except.ok.injEq, Prod.mk.injEq] at h1
          obtain ⟨hp, hd⟩ := h1
          subst hp; subst hd
          obtain ⟨p2, hf2, hpr2⟩ := loadPullRequestTx_ok_inv _ _ _ hl
          have hs2 : pr2.status = .MERGED := by
            rw [hpr2]
            exact find?_merge_update_status db.prs prID db.now p2 hf2
          unfold Service.mergePullRequest Repo.getPullRequest
          rw [hl]
          simp [hs2]

/-- C1 witness: merging the already-merged `dbOpenMerged` (itself the result
of merging `dbOpen`) returns the same state and the same `merged_at`. -/
theorem C1_merge_idempotent_witness :
    Service.mergePullRequest dbOpenMerged "pr1" = .ok (prOpenMerged, dbOpenMerged) :=
  (C1_merge_idempotent dbOpen "pr1" prOpen (by decide)).2 prOpenMerged dbOpenMerged
    (by decide)

/-- C2: on a PR that loads as MERGED, reassignment fails `PR_MERGED` for
every `oldUserID` (even a validly assigned one), and independently the
storage layer (merge-freeze trigger / zero-rows check) never lets
`ReplaceReviewer` succeed, so no reviewer slot is modified. -/
theorem C2_reassign_on_merged (db : DB) (permGen : Nat → List Nat)
    (prID oldUserID : String) (pr : PullRequest)
    (hload : Repo.getPullRequest db prID = .ok pr)
    (hm : pr.status = .MERGED) :
    Service.reassignReviewer db permGen prID oldUserID =
      .error (.svc .PRMERGED "cannot reassign on merged PR") ∧
    ∀ newUserID db2, Repo.replaceReviewer db prID oldUserID newUserID ≠ .ok db2 := by
  obtain ⟨p, hf, hpr⟩ := loadPullRequestTx_ok_inv db prID pr hload
  have hps : p.status = .MERGED := by rw [hpr] at hm; exact hm
  constructor
  · unfold Service.reassignReviewer
    rw [hload]
    simp [hm]
  · intro newUserID db2 heq
    have hmg : prIsMerged db prID = true := by
      unfold prIsMerged
      rw [hf]
      show (p.status == PRStatus.MERGED) = true
      rw [hps]
      rfl
    unfold Repo.replaceReviewer at heq
    split at heq <;> simp_all

/-- C2 witness: on `dbMerged`, reassigning the validly assigned reviewer
"u2" fails `PR_MERGED`. -/
theorem C2_reassign_on_merged_witness :
    Service.reassignReviewer dbMerged permId "pr1" "u2" =
      .error (.svc .PRMERGED "cannot reassign on merged PR") :=
  (C2_reassign_on_merged dbMerged permId "pr1" "u2" prMerged (by decide) rfl).1

/-- C5 counterexample: on the merged `dbMerged`, reviewer "u4" is not
assigned, yet reassignment fails `PR_MERGED`, not `NOT_ASSIGNED` — the
merged check precedes the assigned check. -/
theorem C5_counterexample :
    Service.reassignReviewer dbMerged permId "pr1" "u4" =
      .error (.svc .PRMERGED "cannot reassign on merged PR") ∧
    ("u4" ∈ prMerged.assignedReviewers → False) ∧
    ErrorCode.PRMERGED ≠ ErrorCode.NOTASSIGNED := by decide

/-- C5 amended: a reviewer not assigned to the PR makes reassignment fail
`NOT_ASSIGNED` when the PR is OPEN; when the PR is MERGED the `PR_MERGED`
check takes precedence and the call fails `PR_MERGED` instead. -/
theorem C5_not_assigned (db : DB) (permGen : Nat → List Nat)
    (prID oldUserID : String) (pr : PullRequest)
    (hload : Repo.getPullRequest db prID = .ok pr)
    (hnot : pr.assignedReviewers.contains oldUserID = false) :
    (pr.status = .OPEN →
      Service.reassignReviewer db permGen prID oldUserID =
        .error (.svc .NOTASSIGNED "reviewer is not assigned to this PR")) ∧
    (pr.status = .MERGED →
      Service.reassignReviewer db permGen prID oldUserID =
        .error (.svc .PRMERGED "cannot reassign on merged PR")) := by
  have hnotmem : oldUserID ∉ pr.assignedReviewers := by simpa using hnot
  constructor
  · intro hopen
    unfold Service.reassignReviewer
    rw [hload]
    simp [hopen, hnotmem]
  · intro hm
    unfold Service.reassignReviewer
    rw [hload]
    simp [hm]

/-- C5 witness: on the OPEN `dbOpen`, reassigning the unassigned "u4"
fails `NOT_ASSIGNED`. -/
theorem C5_not_assigned_witness :
    Service.reassignReviewer dbOpen permId "pr1" "u4" =
      .error (.svc .NOTASSIGNED "reviewer is not assigned to this PR") :=
  (C5_not_assigned dbOpen permId "pr1" "u4" prOpen (by decide) (by decide)).1 rfl

/-- C6 counterexample: a pool of two candidates with `maxCount = 2` is
returned as-is, in insertion order, even though the random source's
permutation for length 2 is the reversal — `pickRandom` never consults the
random source when the pool fits. -/
theorem C6_counterexample :
    pickRandom (fun _ => [1, 0]) ["a", "b"] 2 = ["a", "b"] ∧
    (["a", "b"] : List String) ≠ ["b", "a"] := by decide

/-- C6 amended: whenever the pool has at most `maxCount` items,
`pickRandom` returns the whole pool unchanged, in insertion order,
for every random source. -/
theorem C6_small_pool_in_insertion_order (permGen : Nat → List Nat)
    (items : List String) (mx : Nat) (h : items.length ≤ mx) :
    pickRandom permGen items mx = items := by
  unfold pickRandom
  exact if_pos h

/-- C6 witness: a two-element pool with `maxCount = 2` comes back
unchanged. -/
theorem C6_small_pool_in_insertion_order_witness :
    (["a", "b"] : List String).length ≤ 2 ∧
    pickRandom (fun _ => [0, 1]) ["a", "b"] 2 = ["a", "b"] :=
  ⟨by decide, C6_small_pool_in_insertion_order (fun _ => [0, 1]) ["a", "b"] 2 (by decide)⟩

/-- C8 counterexample: `statusFromCode` maps `PR_EXISTS` (duplicate PR id)
to 409 Conflict, not to 500 as the claim's enumeration requires. -/
theorem C8_counterexample :
    statusFromCode .PREXISTS = 409 ∧ (409 : Nat) ≠ 500 := by decide

/-- C8 amended: the HTTP mapping is NotFound→404, TeamExists→400,
PR_EXISTS/PR_MERGED/NOT_ASSIGNED/NO_CANDIDATE→409, every other code →500,
and any error that is not a typed service error →500. -/
theorem C8_status_mapping :
    statusFromCode .NOTFOUND = 404 ∧ statusFromCode .TEAMEXISTS = 400 ∧
    statusFromCode .PREXISTS = 409 ∧ statusFromCode .PRMERGED = 409 ∧
    statusFromCode .NOTASSIGNED = 409 ∧ statusFromCode .NOCANDIDATE = 409 ∧
    statusFromCode .BADREQUEST = 500 ∧ statusFromCode .INTERNALERROR = 500 ∧
    ∀ e : RepoError, writeServiceErrorStatus (.raw e) = 500 :=
  ⟨by decide, by decide, by decide, by decide, by decide, by decide, by decide,
    by decide, fun _ => rfl⟩

/-- C9: `SetUserActive` fails `NOT_FOUND` for an unknown user; for a known
user it flips exactly that user's `is_active` flag and nothing else — all
other user rows, the teams, the pull requests and every reviewer-slot
assignment are untouched, and every PR still loads identically. -/
theorem C9_set_user_active (db : DB) (userID : String) (isActive : Bool) :
    (findUser db userID = none →
      Service.setUserActive db userID isActive =
        .error (.svc .NOTFOUND "user not found")) ∧
    (∀ u, findUser db userID = some u →
      ∃ db2, Service.setUserActive db userID isActive =
          .ok ({ u with isActive := isActive }, db2) ∧
        db2.teams = db.teams ∧ db2.prs = db.prs ∧ db2.reviewers = db.reviewers ∧
        db2.now = db.now ∧
        db2.users = db.users.map (fun v =>
          if v.userId == userID then { v with isActive := isActive } else v) ∧
        (∀ v ∈ db.users, v.userId ≠ userID → v ∈ db2.users) ∧
        (∀ prID, Repo.getPullRequest db2 prID = Repo.getPullRequest db prID)) := by
  constructor
  · intro h
    unfold Service.setUserActive Repo.setUserActive
    rw [h]
  · intro u hu
    unfold Service.setUserActive Repo.setUserActive
    rw [hu]
    refine ⟨_, rfl, rfl, rfl, rfl, rfl, rfl, ?_, ?_⟩
    · intro v hv hne
      have hb : (v.userId == userID) = false := beq_eq_false_iff_ne.mpr hne
      have hfix : (fun w => if w.userId == userID then
          { w with isActive := isActive } else w) v = v := by
        simp [hb]
      have hmem := List.mem_map_of_mem (fun w =>
        if w.userId == userID then { w with isActive := isActive } else w) hv
      rw [hfix] at hmem
      exact hmem
    · intro prID
      exact loadPullRequestTx_congr _ _ _ rfl rfl

/-- C9 witness: deactivating "u2" in `dbOpen` succeeds and leaves the
reviewer slots of "pr1" (where "u2" is assigned) unchanged. -/
theorem C9_set_user_active_witness :
    ∃ db2, Service.setUserActive dbOpen "u2" false =
        .ok (⟨"u2", "Bob", "t", false⟩, db2) ∧
      db2.teams = dbOpen.teams ∧ db2.prs = dbOpen.prs ∧
      db2.reviewers = dbOpen.reviewers ∧ db2.now = dbOpen.now ∧
      db2.users = dbOpen.users.map (fun v =>
        if v.userId == "u2" then { v with isActive := false } else v) ∧
      (∀ v ∈ dbOpen.users, v.userId ≠ "u2" → v ∈ db2.users) ∧
      (∀ prID, Repo.getPullRequest db2 prID = Repo.getPullRequest dbOpen prID) :=
  (C9_set_user_active dbOpen "u2" false).2 ⟨"u2", "Bob", "t", true⟩ rfl

/-- C7 counterexample: a primary-key violation on PR insert (duplicate id
"pr1" in `dbOpen`) surfaces from the repository as the raw wrapped error,
not as the matching domain kind `ErrPullRequestExists`; likewise the
merge-freeze trigger on `ReplaceReviewer` surfaces raw, and the HTTP layer
turns such raw errors into 500, not a domain status. -/
theorem C7_counterexample :
    Repo.createPullRequest dbOpen "pr1" "Another" "a" [] =
      .error (.internal "insert pr") ∧
    RepoError.internal "insert pr" ≠ RepoError.pullRequestExists ∧
    Repo.replaceReviewer dbMerged "pr1" "u2" "u4" =
      .error (.internal "update reviewer") ∧
    writeServiceErrorStatus (.raw (.internal "insert pr")) = 500 := by decide

/-- C7 amended: storage-level constraint violations are NOT translated at
the repository boundary — they surface as raw wrapped errors, which the
HTTP layer maps to 500.  The domain error kinds come instead from explicit
pre-checks: the service's duplicate-PR pre-check yields `PR_EXISTS` and the
repository's team-exists pre-query yields `TeamExists`. -/
theorem C7_no_translation_at_boundary :
    (∀ (db : DB) (prID prName authorID : String) (reviewerIDs : List String),
      db.prs.any (fun p => p.pullRequestId == prID) = true →
      Repo.createPullRequest db prID prName authorID reviewerIDs =
        .error (.internal "insert pr")) ∧
    (∀ (db : DB) (prID oldID newID : String),
      db.reviewers.any (fun r => r.prId == prID && r.reviewerId == oldID) = true →
      prIsMerged db prID = true →
      Repo.replaceReviewer db prID oldID newID =
        .error (.internal "update reviewer")) ∧
    (∀ m, writeServiceErrorStatus (.raw (.internal m)) = 500) ∧
    (∀ (db : DB) (permGen : Nat → List Nat) (id name authorID : String),
      Repo.pullRequestExists db id = true →
      Service.createPullRequest db permGen id name authorID =
        .error (.svc .PREXISTS "pull request already exists")) ∧
    (∀ (db : DB) (team : Team),
      db.teams.any (fun t => t == team.teamName) = true →
      Service.createTeam db team = .error (.svc .TEAMEXISTS "team already exists")) := by
  refine ⟨?_, ?_, ?_, ?_, ?_⟩
  · intro db prID prName authorID reviewerIDs h
    unfold Repo.createPullRequest
    simp [h]
  · intro db prID oldID newID h1 h2
    unfold Repo.replaceReviewer
    simp [h1, h2]
  · intro m
    rfl
  · intro db permGen id name authorID h
    unfold Service.createPullRequest
    simp [h]
  · intro db team h
    unfold Service.createTeam Repo.createTeamWithMembers
    simp [h]

/-- C7 witness: inserting a PR with the taken id "pr1" into `dbOpen` yields
the raw wrapped insert error. -/
theorem C7_no_translation_at_boundary_witness :
    Repo.createPullRequest dbOpen "pr1" "Other" "a" ["u4"] =
      .error (.internal "insert pr") :=
  C7_no_translation_at_boundary.1 dbOpen "pr1" "Other" "a" ["u4"] (by decide)

/-- The upsert's row update never changes a row's user id. -/
theorem applyMember_userId (tn : String) (m : TeamMember) (u : User) :
    (applyMember tn m u).userId = u.userId := by
  unfold applyMember
  by_cases h : (u.userId == m.userId) = true <;> simp [h]

/-- Rows of other users are untouched by the upsert's row update. -/
theorem applyMember_of_ne (tn : String) (m : TeamMember) (u : User)
    (h : u.userId ≠ m.userId) : applyMember tn m u = u := by
  unfold applyMember
  simp [beq_eq_false_iff_ne.mpr h]

/-- The matching row is fully overwritten by the upsert's row update. -/
theorem applyMember_of_eq (tn : String) (m : TeamMember) (u : User)
    (h : u.userId = m.userId) :
    applyMember tn m u = ⟨m.userId, m.username, tn, m.isActive⟩ := by
  unfold applyMember
  simp [h]

/-- An upsert whose target id already exists keeps the id column of the
users table pointwise identical. -/
theorem upsertUser_map_ids (d : DB) (tn : String) (m : TeamMember)
    (hex : (d.users.any (fun u => u.userId == m.userId)) = true) :
    (upsertUser d tn m).users.map (·.userId) = d.users.map (·.userId) := by
  unfold upsertUser
  rw [if_pos hex]
  show (d.users.map (applyMember tn m)).map (·.userId) = _
  rw [List.map_map]
  apply List.map_congr_left
  intro u _
  simp [Function.comp, applyMember_userId]

/-- Upserting preserves distinctness of user ids (the `user_id` PK). -/
theorem upsertUser_ids_nodup (d : DB) (tn : String) (m : TeamMember)
    (h : (d.users.map (·.userId)).Nodup) :
    ((upsertUser d tn m).users.map (·.userId)).Nodup := by
  by_cases hex : (d.users.any (fun u => u.userId == m.userId)) = true
  · rw [upsertUser_map_ids d tn m hex]
    exact h
  · unfold upsertUser
    rw [if_neg hex]
    show ((d.users ++ [(⟨m.userId, m.username, tn, m.isActive⟩ : User)]).map
      (·.userId)).Nodup
    have hnm : m.userId ∉ d.users.map (·.userId) := by
      intro hmem
      rcases List.mem_map.mp hmem with ⟨u, hu, he⟩
      exact hex (List.any_eq_true.mpr ⟨u, hu, beq_iff_eq.mpr he⟩)
    rw [List.map_append]
    exact List.Nodup.append h (by simp) (by simpa using hnm)

/-- An upsert for a different user id leaves the rows with a given id
unchanged. -/
theorem upsertUser_filter_other (d : DB) (tn : String) (m : TeamMember)
    (id : String) (hne : m.userId ≠ id) :
    (upsertUser d tn m).users.filter (fun u => u.userId == id) =
      d.users.filter (fun u => u.userId == id) := by
  unfold upsertUser
  by_cases hex : (d.users.any (fun u => u.userId == m.userId)) = true
  · rw [if_pos hex]
    show (d.users.map (applyMember tn m)).filter (fun u => u.userId == id) = _
    rw [List.filter_map]
    have hpf : d.users.filter ((fun u => u.userId == id) ∘ applyMember tn m) =
        d.users.filter (fun u => u.userId == id) := by
      apply List.filter_congr
      intro u _
      simp [Function.comp, applyMember_userId]
    rw [hpf]
    have hid : ∀ u ∈ d.users.filter (fun u => u.userId == id), applyMember tn m u = u := by
      intro u hu
      have h2 : u.userId = id := by simpa using (List.mem_filter.mp hu).2
      exact applyMember_of_ne tn m u (by rw [h2]; exact fun hh => hne hh.symm)
    rw [List.map_congr_left hid]
    simp
  · rw [if_neg hex]
    show (d.users ++ [(⟨m.userId, m.username, tn, m.isActive⟩ : User)]).filter
        (fun u => u.userId == id) = _
    rw [List.filter_append]
    have hz : ([(⟨m.userId, m.username, tn, m.isActive⟩ : User)].filter
        (fun u => u.userId == id)) = [] := by
      simp [hne]
    rw [hz, List.append_nil]

/-- Under distinct ids, a present id has exactly one matching row. -/
theorem filter_eq_singleton_of_any (l : List User) (id : String)
    (hnodup : (l.map (·.userId)).Nodup)
    (hany : l.any (fun u => u.userId == id) = true) :
    ∃ u0, l.filter (fun u => u.userId == id) = [u0] ∧ u0.userId = id := by
  induction l with
  | nil => simp at hany
  | cons a t ih =>
      rw [List.map_cons, List.nodup_cons] at hnodup
      obtain ⟨hna, hnt⟩ := hnodup
      by_cases h : (a.userId == id) = true
      · have ha : a.userId = id := by simpa using h
        refine ⟨a, ?_, ha⟩
        rw [List.filter_cons, if_pos h]
        have hz : t.filter (fun u => u.userId == id) = [] := by
          rw [List.filter_eq_nil_iff]
          intro u hu hpu
          have : u.userId = id := by simpa using hpu
          exact hna (List.mem_map.mpr ⟨u, hu, by rw [this, ha]⟩)
        rw [hz]
      · rw [List.filter_cons, if_neg h]
        have hany2 : t.any (fun u => u.userId == id) = true := by
          rcases List.any_eq_true.mp hany with ⟨u, hu, hpu⟩
          rcases List.mem_cons.mp hu with he | ht
          · exact absurd (he ▸ hpu) h
          · exact List.any_eq_true.mpr ⟨u, ht, hpu⟩
        exact ih hnt hany2

/-- After an upsert the rows with the member's id are exactly the one
overwritten (or freshly inserted) row. -/
theorem upsertUser_filter_self (d : DB) (tn : String) (m : TeamMember)
    (hnodup : (d.users.map (·.userId)).Nodup) :
    (upsertUser d tn m).users.filter (fun u => u.userId == m.userId) =
      [⟨m.userId, m.username, tn, m.isActive⟩] := by
  unfold upsertUser
  by_cases hex : (d.users.any (fun u => u.userId == m.userId)) = true
  · rw [if_pos hex]
    show (d.users.map (applyMember tn m)).filter (fun u => u.userId == m.userId) = _
    rw [List.filter_map]
    have hpf : d.users.filter ((fun u => u.userId == m.userId) ∘ applyMember tn m) =
        d.users.filter (fun u => u.userId == m.userId) := by
      apply List.filter_congr
      intro u _
      simp [Function.comp, applyMember_userId]
    rw [hpf]
    obtain ⟨u0, hu0, hid⟩ := filter_eq_singleton_of_any d.users m.userId hnodup hex
    rw [hu0]
    show [applyMember tn m u0] = _
    rw [applyMember_of_eq tn m u0 hid]
  · rw [if_neg hex]
    show (d.users ++ [(⟨m.userId, m.username, tn, m.isActive⟩ : User)]).filter
        (fun u => u.userId == m.userId) = _
    rw [List.filter_append]
    have h1 : d.users.filter (fun u => u.userId == m.userId) = [] := by
      rw [List.filter_eq_nil_iff]
      intro u hu hpu
      exact hex (List.any_eq_true.mpr ⟨u, hu, by simpa using hpu⟩)
    rw [h1]
    simp

/-- The member-upsert loop preserves distinctness of user ids. -/
theorem foldl_upsert_ids_nodup (ms : List TeamMember) (d : DB) (tn : String)
    (h : (d.users.map (·.userId)).Nodup) :
    (((ms.foldl (fun x m => upsertUser x tn m) d).users).map (·.userId)).Nodup := by
  induction ms generalizing d with
  | nil => exact h
  | cons m rest ih => exact ih (upsertUser d tn m) (upsertUser_ids_nodup d tn m h)

/-- The member-upsert loop does not touch rows whose id occurs in none of
the members. -/
theorem foldl_upsert_filter_absent (ms : List TeamMember) (d : DB) (tn : String)
    (id : String) (habs : ∀ x ∈ ms, x.userId ≠ id) :
    ((ms.foldl (fun x m => upsertUser x tn m) d).users).filter
        (fun u => u.userId == id) =
      d.users.filter (fun u => u.userId == id) := by
  induction ms generalizing d with
  | nil => rfl
  | cons m rest ih =>
      rw [List.foldl_cons,
        ih (upsertUser d tn m) (fun x hx => habs x (List.mem_cons_of_mem m hx))]
      exact upsertUser_filter_other d tn m id (habs m (List.mem_cons_self m rest))

/-- After the member-upsert loop, the rows carrying the id of a member
occurring exactly once are exactly that member's fresh row. -/
theorem foldl_upsert_filter_target (ms : List TeamMember) (tn : String)
    (m : TeamMember) :
    ∀ d : DB, (d.users.map (·.userId)).Nodup →
    ms.filter (fun x => x.userId == m.userId) = [m] →
    ((ms.foldl (fun x m' => upsertUser x tn m') d).users).filter
        (fun u => u.userId == m.userId) =
      [⟨m.userId, m.username, tn, m.isActive⟩] := by
  induction ms with
  | nil => intro d _ hms; simp at hms
  | cons m' rest ih =>
      intro d hnodup hms
      rw [List.filter_cons] at hms
      by_cases h : (m'.userId == m.userId) = true
      · rw [if_pos h] at hms
        injection hms with he hrest
        subst he
        have habs : ∀ x ∈ rest, x.userId ≠ m'.userId := by
          intro x hx
          have hb := List.filter_eq_nil_iff.mp hrest x hx
          simpa using hb
        rw [List.foldl_cons,
          foldl_upsert_filter_absent rest (upsertUser d tn m') tn m'.userId habs]
        exact upsertUser_filter_self d tn m' hnodup
      · rw [if_neg h] at hms
        rw [List.foldl_cons]
        exact ih (upsertUser d tn m') (upsertUser_ids_nodup d tn m' hnodup) hms

/-- A filter with a singleton result pins down `find?`. -/
theorem find?_of_filter_singleton {α : Type} (l : List α) (p : α → Bool) (u : α)
    (h : l.filter p = [u]) : l.find? p = some u := by
  induction l with
  | nil => simp at h
  | cons a t ih =>
      rw [List.filter_cons] at h
      by_cases hp : p a = true
      · rw [if_pos hp] at h
        injection h with h1 _
        rw [List.find?_cons_of_pos t hp, h1]
      · rw [if_neg hp] at h
        rw [List.find?_cons_of_neg t hp]
        exact ih h

/-- C10: team creation with a member whose user id already exists (here as
`u0`, possibly in another team) succeeds — a duplicate member never fails —
and overwrites that user's row in place: afterwards exactly one row carries
the id, holding the request's username, the new team name and the
request's `is_active`.  Only a duplicate team name fails, with
`TEAM_EXISTS`. -/
theorem C10_team_add_upserts_existing_user (db : DB) (team : Team)
    (m : TeamMember) (u0 : User)
    (hnodup : (db.users.map (·.userId)).Nodup)
    (honce : team.members.filter (fun x => x.userId == m.userId) = [m])
    (_hu0 : findUser db m.userId = some u0) :
    (db.teams.any (fun t => t == team.teamName) = true →
      Service.createTeam db team = .error (.svc .TEAMEXISTS "team already exists")) ∧
    (db.teams.any (fun t => t == team.teamName) = false →
      ∃ t2 db2, Service.createTeam db team = .ok (t2, db2) ∧
        db2.users.filter (fun u => u.userId == m.userId) =
          [⟨m.userId, m.username, team.teamName, m.isActive⟩] ∧
        findUser db2 m.userId =
          some ⟨m.userId, m.username, team.teamName, m.isActive⟩) := by
  constructor
  · intro hdup
    unfold Service.createTeam Repo.createTeamWithMembers
    simp [hdup]
  · intro hfresh
    have hrun : Service.createTeam db team =
        .ok (loadTeamTx (team.members.foldl (fun d2 m' => upsertUser d2 team.teamName m')
              { db with teams := db.teams ++ [team.teamName] }) team.teamName,
          team.members.foldl (fun d2 m' => upsertUser d2 team.teamName m')
            { db with teams := db.teams ++ [team.teamName] }) := by
      unfold Service.createTeam Repo.createTeamWithMembers
      rw [if_neg (by simp [hfresh])]
    have hfil := foldl_upsert_filter_target team.members team.teamName m
      { db with teams := db.teams ++ [team.teamName] } hnodup honce
    exact ⟨_, _, hrun, hfil, find?_of_filter_singleton _ _ _ hfil⟩

/-- C10 witness: adding team "nt" with the existing member "u2" (of team
"t") moves "u2" into "nt" with the new username and flag, in place. -/
theorem C10_team_add_upserts_existing_user_witness :
    ∃ t2 db2, Service.createTeam dbNoPR teamNT = .ok (t2, db2) ∧
      db2.users.filter (fun u => u.userId == "u2") = [⟨"u2", "Bobby", "nt", false⟩] ∧
      findUser db2 "u2" = some ⟨"u2", "Bobby", "nt", false⟩ :=
  (C10_team_add_upserts_existing_user dbNoPR teamNT ⟨"u2", "Bobby", false⟩
    ⟨"u2", "Bob", "t", true⟩ (by decide) rfl rfl).2 rfl

/-- Evaluation of `pickRandom` when the pool fits: the pool itself. -/
theorem pickRandom_le (permGen : Nat → List Nat) (items : List String) (mx : Nat)
    (h : items.length ≤ mx) : pickRandom permGen items mx = items := by
  unfold pickRandom
  exact if_pos h

/-- Evaluation of `pickRandom` when the pool is larger: the first `mx` indices of the
generated permutation. -/
theorem pickRandom_gt (permGen : Nat → List Nat) (items : List String) (mx : Nat)
    (h : ¬ items.length ≤ mx) :
    pickRandom permGen items mx =
      (List.range mx).map (fun i => items.getD ((permGen items.length).getD i 0) "") := by
  unfold pickRandom
  exact if_neg h

/-- Behaviour of `pickRandom` under a genuine permutation of indices: the
result has `min |items| mx` entries, all drawn from the pool, without
duplicates. -/
theorem pickRandom_spec (permGen : Nat → List Nat) (items : List String) (mx : Nat)
    (hperm : (permGen items.length).Perm (List.range items.length))
    (hnodup : items.Nodup) :
    (pickRandom permGen items mx).length = min items.length mx ∧
    (∀ x ∈ pickRandom permGen items mx, x ∈ items) ∧
    (pickRandom permGen items mx).Nodup := by
  by_cases h : items.length ≤ mx
  · rw [pickRandom_le _ _ _ h]
    exact ⟨(min_eq_left h).symm, fun x hx => hx, hnodup⟩
  · rw [pickRandom_gt _ _ _ h]
    have hlt : mx < items.length := by omega
    have hplen : (permGen items.length).length = items.length :=
      hperm.length_eq.trans (List.length_range _)
    have hidx : ∀ i, i < mx → (permGen items.length).getD i 0 < items.length := by
      intro i hi
      have hi2 : i < (permGen items.length).length := by omega
      rw [List.getD_eq_getElem _ _ hi2]
      exact List.mem_range.mp (hperm.mem_iff.mp (List.getElem_mem hi2))
    refine ⟨?_, ?_, ?_⟩
    · rw [List.length_map, List.length_range]
      omega
    · intro x hx
      rcases List.mem_map.mp hx with ⟨i, hi, he⟩
      have hi' : i < mx := List.mem_range.mp hi
      rw [← he, List.getD_eq_getElem _ _ (hidx i hi')]
      exact List.getElem_mem _
    · apply List.Nodup.map_on ?_ (List.nodup_range mx)
      intro i hi j hj he
      have hi' : i < mx := List.mem_range.mp hi
      have hj' : j < mx := List.mem_range.mp hj
      have hpn : (permGen items.length).Nodup :=
        hperm.nodup_iff.mpr (List.nodup_range _)
      have hii : (permGen items.length).getD i 0 < items.length := hidx i hi'
      have hjj : (permGen items.length).getD j 0 < items.length := hidx j hj'
      rw [List.getD_eq_getElem _ _ hii, List.getD_eq_getElem _ _ hjj] at he
      have hidx_eq : (permGen items.length).getD i 0 = (permGen items.length).getD j 0 :=
        (List.Nodup.getElem_inj_iff hnodup).mp he
      rw [List.getD_eq_getElem _ _ (by omega : i < (permGen items.length).length),
        List.getD_eq_getElem _ _ (by omega : j < (permGen items.length).length)] at hidx_eq
      exact (List.Nodup.getElem_inj_iff hpn).mp hidx_eq

/-- Every row the insert loop produces carries the PR's id. -/
theorem revRowsFrom_prId (prID : String) :
    ∀ (s : Nat) (rids : List String), ∀ r ∈ revRowsFrom prID s rids, r.prId = prID := by
  intro s rids
  induction rids generalizing s with
  | nil => intro r hr; simp [revRowsFrom] at hr
  | cons rid rest ih =>
      intro r hr
      rcases List.mem_cons.mp hr with he | ht
      · rw [he]
      · exact ih (s + 1) r ht

/-- The reviewer ids of the produced rows are the input list. -/
theorem revRowsFrom_map (prID : String) :
    ∀ (s : Nat) (rids : List String),
    (revRowsFrom prID s rids).map (·.reviewerId) = rids := by
  intro s rids
  induction rids generalizing s with
  | nil => rfl
  | cons rid rest ih =>
      show rid :: (revRowsFrom prID (s + 1) rest).map (·.reviewerId) = rid :: rest
      rw [ih (s + 1)]

/-- The insert loop produces rows with strictly increasing slots, so the
`ORDER BY slot` sort leaves them as inserted. -/
theorem sortBySlot_revRowsFrom (prID : String) :
    ∀ (s : Nat) (rids : List String),
    sortBySlot (revRowsFrom prID s rids) = revRowsFrom prID s rids := by
  intro s rids
  induction rids generalizing s with
  | nil => rfl
  | cons rid rest ih =>
      show insertBySlot ⟨prID, s, rid⟩ (sortBySlot (revRowsFrom prID (s + 1) rest)) = _
      rw [ih (s + 1)]
      cases rest with
      | nil => rfl
      | cons r2 rest2 =>
          show (if s ≤ s + 1 then _ else _) = _
          rw [if_pos (by omega : s ≤ s + 1)]
          rfl

/-- The trigger condition only reads the `pull_requests` table. -/
theorem prIsMerged_congr (db db2 : DB) (prID : String) (h : db2.prs = db.prs) :
    prIsMerged db2 prID = prIsMerged db prID := by
  unfold prIsMerged
  rw [h]

/-- The reviewer-insert loop of PR creation succeeds — appending exactly the
expected rows — whenever the slots stay in range, the reviewer ids are
distinct known users, no conflicting row pre-exists and the PR is not
merged. -/
theorem insertReviewerRows_ok (prID : String) :
    ∀ (rids : List String) (slot : Nat) (db : DB),
    1 ≤ slot → slot + rids.length ≤ 3 →
    rids.Nodup →
    (∀ rid ∈ rids, db.users.any (fun u => u.userId == rid) = true) →
    (∀ r ∈ db.reviewers, r.prId = prID → r.slot < slot ∧ r.reviewerId ∉ rids) →
    prIsMerged db prID = false →
    insertReviewerRows db prID rids slot =
      .ok { db with reviewers := db.reviewers ++ revRowsFrom prID slot rids } := by
  intro rids
  induction rids with
  | nil =>
      intro slot db _ _ _ _ _ _
      show Except.ok db = _
      simp [revRowsFrom]
  | cons rid rest ih =>
      intro slot db h1 h3 hnodup husers hold hopen
      unfold insertReviewerRows
      have hs3 : slot ≤ 2 := by
        have := List.length_cons rid rest ▸ h3
        omega
      rw [if_neg (by omega : ¬(slot ≠ 1 ∧ slot ≠ 2))]
      have hu : db.users.any (fun u => u.userId == rid) = true :=
        husers rid (List.mem_cons_self rid rest)
      rw [if_neg (by simp [hu])]
      have hc1 : (db.reviewers.any
          (fun r => r.prId == prID && r.reviewerId == rid)) = false := by
        rw [List.any_eq_false]
        intro r hr hcontra
        have hpr : r.prId = prID := by
          have := (Bool.and_eq_true _ _ ▸ hcontra).1
          simpa using this
        have hrev : r.reviewerId = rid := by
          have := (Bool.and_eq_true _ _ ▸ hcontra).2
          simpa using this
        exact (hold r hr hpr).2 (hrev ▸ List.mem_cons_self rid rest)
      rw [if_neg (by simp [hc1])]
      have hc2 : (db.reviewers.any
          (fun r => r.prId == prID && r.slot == slot)) = false := by
        rw [List.any_eq_false]
        intro r hr hcontra
        have hpr : r.prId = prID := by
          have := (Bool.and_eq_true _ _ ▸ hcontra).1
          simpa using this
        have hsl : r.slot = slot := by
          have := (Bool.and_eq_true _ _ ▸ hcontra).2
          simpa using this
        have := (hold r hr hpr).1
        omega
      rw [if_neg (by simp [hc2])]
      rw [if_neg (by simp [hopen])]
      rw [ih (slot + 1) { db with reviewers := db.reviewers ++ [⟨prID, slot, rid⟩] }
        (by omega)
        (by have := List.length_cons rid rest ▸ h3; omega)
        hnodup.of_cons
        (fun rid2 hr2 => husers rid2 (List.mem_cons_of_mem rid hr2))
        ?hold2
        ((prIsMerged_congr { db with reviewers := db.reviewers ++ [⟨prID, slot, rid⟩] }
          db prID rfl).trans hopen)]
      · rw [List.append_assoc]
        rfl
      case hold2 =>
        intro r hr hpr
        rcases List.mem_append.mp hr with hin | hnew
        · obtain ⟨hlt, hnm⟩ := hold r hin hpr
          exact ⟨by omega, fun hc => hnm (List.mem_cons_of_mem rid hc)⟩
        · have : r = ⟨prID, slot, rid⟩ := by simpa using hnew
          subst this
          exact ⟨Nat.lt_succ_self slot, fun hc => (List.nodup_cons.mp hnodup).1 hc⟩

/-- Loading a PR whose row is found assembles the result from that row. -/
theorem loadPullRequestTx_of (db : DB) (prID : String) (p : PRRow)
    (hf : db.prs.find? (fun q => q.pullRequestId == prID) = some p) :
    loadPullRequestTx db prID = .ok ⟨p.pullRequestId, p.pullRequestName, p.authorId,
      p.status, (prReviewerRows db prID).map (·.reviewerId), some p.createdAt,
      p.mergedAt⟩ := by
  unfold loadPullRequestTx
  rw [hf]

/-- Success case: `Repo.CreatePullRequest` succeeds on a fresh id with a valid author and
at most two distinct known reviewers, appending exactly the OPEN PR row and
the slot rows. -/
theorem createPullRequest_ok (db : DB) (id name authorID : String)
    (revs : List String)
    (hnoex : (db.prs.any (fun p => p.pullRequestId == id)) = false)
    (hanyauthor : (db.users.any (fun u => u.userId == authorID)) = true)
    (hlen2 : revs.length ≤ 2)
    (hnd : revs.Nodup)
    (husers : ∀ rid ∈ revs, db.users.any (fun u => u.userId == rid) = true)
    (hfk : ∀ r ∈ db.reviewers, r.prId ≠ id) :
    Repo.createPullRequest db id name authorID revs =
      .ok (⟨id, name, authorID, .OPEN, revs, some db.now, none⟩,
        { db with
          prs := db.prs ++ [⟨id, name, authorID, .OPEN, db.now, none⟩]
          reviewers := db.reviewers ++ revRowsFrom id 1 revs }) := by
  have hfind0 : db.prs.find? (fun p => p.pullRequestId == id) = none :=
    List.find?_eq_none.mpr (fun p hp => List.any_eq_false.mp hnoex p hp)
  have hfind1 : (db.prs ++ [(⟨id, name, authorID, .OPEN, db.now, none⟩ : PRRow)]).find?
      (fun p => p.pullRequestId == id) =
      some ⟨id, name, authorID, .OPEN, db.now, none⟩ := by
    rw [List.find?_append, hfind0]
    show ([(⟨id, name, authorID, .OPEN, db.now, none⟩ : PRRow)]).find?
        (fun p => p.pullRequestId == id) = _
    rw [List.find?_cons_of_pos _ (by simp)]
  have hins := insertReviewerRows_ok id revs 1
    { db with prs := db.prs ++ [⟨id, name, authorID, .OPEN, db.now, none⟩] }
    (le_refl 1) (by omega) hnd husers
    (fun r hr hpr => absurd hpr (hfk r hr))
    (by
      unfold prIsMerged
      show (match (db.prs ++ [(⟨id, name, authorID, .OPEN, db.now, none⟩ : PRRow)]).find?
          (fun p => p.pullRequestId == id) with
        | some p => p.status == PRStatus.MERGED
        | none => false) = false
      rw [hfind1]
      rfl)
  have hfil : (db.reviewers ++ revRowsFrom id 1 revs).filter (fun r => r.prId == id) =
      revRowsFrom id 1 revs := by
    rw [List.filter_append]
    have h1 : db.reviewers.filter (fun r => r.prId == id) = [] :=
      List.filter_eq_nil_iff.mpr (fun r hr => by simpa using hfk r hr)
    have h2 : (revRowsFrom id 1 revs).filter (fun r => r.prId == id) =
        revRowsFrom id 1 revs :=
      List.filter_eq_self.mpr (fun r hr => by simpa using revRowsFrom_prId id 1 revs r hr)
    rw [h1, h2, List.nil_append]
  have hload2 : loadPullRequestTx
      { db with
        prs := db.prs ++ [⟨id, name, authorID, .OPEN, db.now, none⟩]
        reviewers := db.reviewers ++ revRowsFrom id 1 revs } id =
      .ok ⟨id, name, authorID, .OPEN,
        (prReviewerRows
          { db with
            prs := db.prs ++ [⟨id, name, authorID, .OPEN, db.now, none⟩]
            reviewers := db.reviewers ++ revRowsFrom id 1 revs } id).map (·.reviewerId),
        some db.now, none⟩ :=
    loadPullRequestTx_of _ id _ hfind1
  have hrevmap : (prReviewerRows
      { db with
        prs := db.prs ++ [⟨id, name, authorID, .OPEN, db.now, none⟩]
        reviewers := db.reviewers ++ revRowsFrom id 1 revs } id).map (·.reviewerId) =
      revs := by
    unfold prReviewerRows
    show ((sortBySlot ((db.reviewers ++ revRowsFrom id 1 revs).filter
      (fun r => r.prId == id)))).map (·.reviewerId) = revs
    rw [hfil, sortBySlot_revRowsFrom, revRowsFrom_map]
  rw [hrevmap] at hload2
  unfold Repo.createPullRequest
  rw [if_neg (by simp [hnoex]), if_neg (by simp [hanyauthor])]
  rw [hins]
  show (match loadPullRequestTx
      { db with
        prs := db.prs ++ [(⟨id, name, authorID, .OPEN, db.now, none⟩ : PRRow)]
        reviewers := db.reviewers ++ revRowsFrom id 1 revs } id with
    | Except.error e => Except.error e
    | Except.ok pr => Except.ok (pr,
        { db with
          prs := db.prs ++ [(⟨id, name, authorID, .OPEN, db.now, none⟩ : PRRow)]
          reviewers := db.reviewers ++ revRowsFrom id 1 revs })) = _
  rw [hload2]

/-- C3: PR creation with a resolvable author succeeds; with N other active
team members the reviewer list has length min(N, 2), never contains the
author, has no duplicates, and an empty candidate pool yields a PR with
zero reviewers instead of an error. -/
theorem C3_create_pr_reviewer_selection (db : DB) (permGen : Nat → List Nat)
    (id name authorID : String) (author : User)
    (hperm : ∀ n, (permGen n).Perm (List.range n))
    (hids : (db.users.map (·.userId)).Nodup)
    (hnoex : Repo.pullRequestExists db id = false)
    (hauthor : findUser db authorID = some author)
    (hfk : ∀ r ∈ db.reviewers, r.prId ≠ id) :
    ∃ pr db2, Service.createPullRequest db permGen id name authorID = .ok (pr, db2) ∧
      pr.assignedReviewers.length =
        min ((Repo.listActiveUsersInTeam db author.teamName).filter
          (fun u => u.userId != author.userId)).length 2 ∧
      authorID ∉ pr.assignedReviewers ∧
      pr.assignedReviewers.Nodup ∧
      ((Repo.listActiveUsersInTeam db author.teamName).filter
          (fun u => u.userId != author.userId) = [] →
        pr.assignedReviewers = []) := by
  have hauthor' : db.users.find? (fun u => u.userId == authorID) = some author := hauthor
  have hauthorId : author.userId = authorID := by simpa using List.find?_some hauthor'
  have hget : Repo.getUser db authorID = .ok author := by
    unfold Repo.getUser
    rw [hauthor]
  have hsub1 : List.Sublist (Repo.listActiveUsersInTeam db author.teamName) db.users := by
    unfold Repo.listActiveUsersInTeam
    exact List.filter_sublist _
  have hsubl : List.Sublist ((Repo.listActiveUsersInTeam db author.teamName).filter
      (fun u => u.userId != author.userId)) db.users :=
    (List.filter_sublist _).trans hsub1
  have hcnodup : (((Repo.listActiveUsersInTeam db author.teamName).filter
      (fun u => u.userId != author.userId)).map (·.userId)).Nodup :=
    List.Nodup.sublist (List.Sublist.map _ hsubl) hids
  obtain ⟨hlen, hmem, hnd⟩ := pickRandom_spec permGen
    (((Repo.listActiveUsersInTeam db author.teamName).filter
      (fun u => u.userId != author.userId)).map (·.userId)) 2 (hperm _) hcnodup
  have hcand : ∀ c ∈ (((Repo.listActiveUsersInTeam db author.teamName).filter
      (fun u => u.userId != author.userId)).map (·.userId)),
      (∃ u ∈ db.users, u.userId = c) ∧ c ≠ authorID := by
    intro c hc
    rcases List.mem_map.mp hc with ⟨u, hu, he⟩
    have hu1 : u ∈ Repo.listActiveUsersInTeam db author.teamName :=
      (List.mem_filter.mp hu).1
    have hu2 := (List.mem_filter.mp hu).2
    have humem : u ∈ db.users := (List.mem_filter.mp hu1).1
    refine ⟨⟨u, humem, he⟩, ?_⟩
    have hne : u.userId ≠ author.userId := by simpa using hu2
    intro hceq
    exact hne (by rw [he, hceq, hauthorId])
  have hanyauthor : (db.users.any (fun u => u.userId == authorID)) = true :=
    List.any_eq_true.mpr ⟨author, List.mem_of_find?_eq_some hauthor',
      beq_iff_eq.mpr hauthorId⟩
  have husers1 : ∀ rid ∈ pickRandom permGen (((Repo.listActiveUsersInTeam db
      author.teamName).filter (fun u => u.userId != author.userId)).map (·.userId)) 2,
      db.users.any (fun u => u.userId == rid) = true := by
    intro rid hr
    obtain ⟨⟨u, hu, he⟩, _⟩ := hcand rid (hmem rid hr)
    exact List.any_eq_true.mpr ⟨u, hu, beq_iff_eq.mpr he⟩
  have hlen2 : (pickRandom permGen (((Repo.listActiveUsersInTeam db
      author.teamName).filter (fun u => u.userId != author.userId)).map (·.userId))
      2).length ≤ 2 := by
    rw [hlen]
    exact min_le_right _ _
  have hrepo := createPullRequest_ok db id name authorID
    (pickRandom permGen (((Repo.listActiveUsersInTeam db author.teamName).filter
      (fun u => u.userId != author.userId)).map (·.userId)) 2)
    hnoex hanyauthor hlen2 hnd husers1 hfk
  have hsvc : Service.createPullRequest db permGen id name authorID =
      .ok (⟨id, name, authorID, .OPEN,
        pickRandom permGen (((Repo.listActiveUsersInTeam db author.teamName).filter
          (fun u => u.userId != author.userId)).map (·.userId)) 2, some db.now, none⟩,
        { db with
          prs := db.prs ++ [(⟨id, name, authorID, .OPEN, db.now, none⟩ : PRRow)]
          reviewers := db.reviewers ++ revRowsFrom id 1
            (pickRandom permGen (((Repo.listActiveUsersInTeam db author.teamName).filter
              (fun u => u.userId != author.userId)).map (·.userId)) 2) }) := by
    unfold Service.createPullRequest
    rw [if_neg (by simp [hnoex]), hget]
    show (match Repo.createPullRequest db id name authorID
        (pickRandom permGen (((Repo.listActiveUsersInTeam db author.teamName).filter
          (fun u => u.userId != author.userId)).map (·.userId)) 2) with
      | Except.error e => Except.error (SvcErr.raw e)
      | Except.ok r => Except.ok r) = _
    rw [hrepo]
  refine ⟨_, _, hsvc, ?_, ?_, ?_, ?_⟩
  · show (pickRandom permGen (((Repo.listActiveUsersInTeam db author.teamName).filter
      (fun u => u.userId != author.userId)).map (·.userId)) 2).length = _
    rw [hlen, List.length_map]
  · intro hmem2
    exact (hcand authorID (hmem authorID hmem2)).2 rfl
  · exact hnd
  · intro hemp
    show pickRandom permGen (((Repo.listActiveUsersInTeam db author.teamName).filter
      (fun u => u.userId != author.userId)).map (·.userId)) 2 = []
    rw [hemp]
    rfl

/-- Inserting into the slot sort is a permutation of consing. -/
theorem insertBySlot_perm (x : RevRow) : ∀ l, (insertBySlot x l).Perm (x :: l) := by
  intro l
  induction l with
  | nil => exact List.Perm.refl _
  | cons y ys ih =>
      show (if x.slot ≤ y.slot then x :: y :: ys else y :: insertBySlot x ys).Perm _
      by_cases h : x.slot ≤ y.slot
      · rw [if_pos h]
      · rw [if_neg h]
        exact (ih.cons y).trans (List.Perm.swap x y ys)

/-- The `ORDER BY slot` sort permutes the rows. -/
theorem sortBySlot_perm : ∀ l, (sortBySlot l).Perm l := by
  intro l
  induction l with
  | nil => exact List.Perm.refl _
  | cons x xs ih =>
      show (insertBySlot x (sortBySlot xs)).Perm _
      exact (insertBySlot_perm x (sortBySlot xs)).trans (ih.cons x)

/-- A loaded PR's reviewer list consists exactly of the reviewer ids of its
rows in the `pr_reviewers` table. -/
theorem assignedReviewers_mem (db : DB) (prID : String) (pr : PullRequest)
    (hload : Repo.getPullRequest db prID = .ok pr) :
    ∀ x, x ∈ pr.assignedReviewers ↔
      ∃ r ∈ db.reviewers, r.prId = prID ∧ r.reviewerId = x := by
  obtain ⟨p, hf, hpr⟩ := loadPullRequestTx_ok_inv db prID pr hload
  intro x
  rw [hpr]
  show x ∈ (prReviewerRows db prID).map (·.reviewerId) ↔ _
  unfold prReviewerRows
  constructor
  · intro hx
    rcases List.mem_map.mp hx with ⟨r, hr, he⟩
    have hr2 : r ∈ db.reviewers.filter (fun r => r.prId == prID) :=
      (sortBySlot_perm _).mem_iff.mp hr
    obtain ⟨hrmem, hrpred⟩ := List.mem_filter.mp hr2
    exact ⟨r, hrmem, by simpa using hrpred, he⟩
  · rintro ⟨r, hrmem, hpr2, hrid⟩
    apply List.mem_map.mpr
    refine ⟨r, ?_, hrid⟩
    exact (sortBySlot_perm _).mem_iff.mpr
      (List.mem_filter.mpr ⟨hrmem, by simpa using hpr2⟩)

/-- The head of a one-element draw is in the pool. -/
theorem pickRandom_head_mem (permGen : Nat → List Nat) (items : List String)
    (hperm : (permGen items.length).Perm (List.range items.length))
    (hne : items ≠ []) :
    (pickRandom permGen items 1).headD "" ∈ items := by
  by_cases h : items.length ≤ 1
  · rw [pickRandom_le _ _ _ h]
    cases items with
    | nil => exact absurd rfl hne
    | cons a t => exact List.mem_cons_self a t
  · rw [pickRandom_gt _ _ _ h]
    show (items.getD ((permGen items.length).getD 0 0) "") ∈ items
    have hplen : (permGen items.length).length = items.length :=
      hperm.length_eq.trans (List.length_range _)
    have h0 : (permGen items.length).getD 0 0 < items.length := by
      have h02 : 0 < (permGen items.length).length := by omega
      rw [List.getD_eq_getElem _ _ h02]
      exact List.mem_range.mp (hperm.mem_iff.mp (List.getElem_mem h02))
    rw [List.getD_eq_getElem _ _ h0]
    exact List.getElem_mem _

/-- C4: on an OPEN PR with a validly assigned departing reviewer, the
candidate pool is exactly the departing reviewer's team's active users
minus {author} ∪ {assigned reviewers} ∪ {departing reviewer}; an empty pool
fails `NO_CANDIDATE`, and otherwise the reassignment succeeds and returns a
replacement drawn from that pool. -/
theorem C4_reassign_candidate_pool (db : DB) (permGen : Nat → List Nat)
    (prID oldUserID : String) (pr : PullRequest) (oldUser : User)
    (hperm : ∀ n, (permGen n).Perm (List.range n))
    (hload : Repo.getPullRequest db prID = .ok pr)
    (hopen : pr.status = .OPEN)
    (hass : oldUserID ∈ pr.assignedReviewers)
    (hold : findUser db oldUserID = some oldUser) :
    (∀ c, c ∈ reassignCandidates db pr oldUserID oldUser ↔
      ((∃ u ∈ Repo.listActiveUsersInTeam db oldUser.teamName, u.userId = c) ∧
        c ≠ pr.authorId ∧ c ≠ oldUserID ∧ c ∉ pr.assignedReviewers)) ∧
    (reassignCandidates db pr oldUserID oldUser = [] →
      Service.reassignReviewer db permGen prID oldUserID =
        .error (.svc .NOCANDIDATE "no active replacement candidate in team")) ∧
    (reassignCandidates db pr oldUserID oldUser ≠ [] →
      ∃ pr2 newID db2,
        Service.reassignReviewer db permGen prID oldUserID = .ok (pr2, newID, db2) ∧
        newID ∈ reassignCandidates db pr oldUserID oldUser) := by
  obtain ⟨p, hf, hpr⟩ := loadPullRequestTx_ok_inv db prID pr hload
  have hps : p.status = .OPEN := by rw [hpr] at hopen; exact hopen
  have hmrg : prIsMerged db prID = false := by
    unfold prIsMerged
    rw [hf]
    show (p.status == PRStatus.MERGED) = false
    rw [hps]
    rfl
  have hgetold : Repo.getUser db oldUserID = .ok oldUser := by
    unfold Repo.getUser
    rw [hold]
  have hchar : ∀ c, c ∈ reassignCandidates db pr oldUserID oldUser ↔
      ((∃ u ∈ Repo.listActiveUsersInTeam db oldUser.teamName, u.userId = c) ∧
        c ≠ pr.authorId ∧ c ≠ oldUserID ∧ c ∉ pr.assignedReviewers) := by
    intro c
    unfold reassignCandidates
    constructor
    · intro hc
      rcases List.mem_map.mp hc with ⟨u, hu, he⟩
      obtain ⟨hu1, hu2⟩ := List.mem_filter.mp hu
      have hu4 : u.userId ∉ (pr.authorId :: oldUserID :: pr.assignedReviewers) := by
        simpa using hu2
      simp only [List.mem_cons, not_or] at hu4
      obtain ⟨h1, h2, h3⟩ := hu4
      exact ⟨⟨u, hu1, he⟩, he ▸ h1, he ▸ h2, he ▸ h3⟩
    · rintro ⟨⟨u, hu, he⟩, h1, h2, h3⟩
      refine List.mem_map.mpr ⟨u, List.mem_filter.mpr ⟨hu, ?_⟩, he⟩
      have hnm : u.userId ∉ (pr.authorId :: oldUserID :: pr.assignedReviewers) := by
        rw [he]
        simp only [List.mem_cons, not_or]
        exact ⟨h1, h2, h3⟩
      simpa using hnm
  have hassign := assignedReviewers_mem db prID pr hload
  have hmatch : db.reviewers.any
      (fun r => r.prId == prID && r.reviewerId == oldUserID) = true := by
    obtain ⟨r, hrmem, hp1, hp2⟩ := (hassign oldUserID).mp hass
    exact List.any_eq_true.mpr ⟨r, hrmem, by simp [hp1, hp2]⟩
  refine ⟨hchar, ?_, ?_⟩
  · intro hemp
    unfold Service.reassignReviewer
    rw [hload]
    show (if pr.status = PRStatus.MERGED then _ else _) = _
    rw [if_neg (by simp [hopen])]
    show (if ¬ pr.assignedReviewers.contains oldUserID then _ else _) = _
    rw [if_neg (by simp [hass])]
    rw [hgetold]
    show (if (reassignCandidates db pr oldUserID oldUser).length = 0 then _ else _) = _
    rw [if_pos (by rw [hemp]; rfl)]
  · intro hne
    have hnew := pickRandom_head_mem permGen (reassignCandidates db pr oldUserID oldUser)
      (hperm _) hne
    obtain ⟨⟨u, humem, hue⟩, hna, hno, hnass⟩ := (hchar _).mp hnew
    have hanynew : db.users.any (fun v => v.userId ==
        (pickRandom permGen (reassignCandidates db pr oldUserID oldUser) 1).headD "") =
        true := by
      have humem2 : u ∈ db.users := (List.mem_filter.mp humem).1
      exact List.any_eq_true.mpr ⟨u, humem2, beq_iff_eq.mpr hue⟩
    have hanynew2 : db.reviewers.any (fun r => r.prId == prID && r.reviewerId ==
        (pickRandom permGen (reassignCandidates db pr oldUserID oldUser) 1).headD "") =
        false := by
      rw [List.any_eq_false]
      intro r hr hcontra
      have hp1 : r.prId = prID := by
        have := (Bool.and_eq_true _ _ ▸ hcontra).1
        simpa using this
      have hp2 : r.reviewerId =
          (pickRandom permGen (reassignCandidates db pr oldUserID oldUser) 1).headD "" := by
        have := (Bool.and_eq_true _ _ ▸ hcontra).2
        simpa using this
      exact hnass ((hassign _).mpr ⟨r, hr, hp1, hp2⟩)
    have hrep : Repo.replaceReviewer db prID oldUserID
        ((pickRandom permGen (reassignCandidates db pr oldUserID oldUser) 1).headD "") =
        .ok { db with reviewers := db.reviewers.map (fun r =>
          if r.prId == prID && r.reviewerId == oldUserID then
            { r with reviewerId := (pickRandom permGen
              (reassignCandidates db pr oldUserID oldUser) 1).headD "" }
          else r) } := by
      unfold Repo.replaceReviewer
      rw [if_neg (not_not_intro hmatch)]
      rw [if_neg (by simp [hmrg])]
      rw [if_neg (not_not_intro hanynew)]
      rw [if_neg (by intro hcon; have hb := hcon.2; rw [hanynew2] at hb; simp at hb)]
    have hload3 := loadPullRequestTx_of
      { db with reviewers := db.reviewers.map (fun r =>
          if r.prId == prID && r.reviewerId == oldUserID then
            { r with reviewerId := (pickRandom permGen
              (reassignCandidates db pr oldUserID oldUser) 1).headD "" }
          else r) } prID p hf
    refine ⟨⟨p.pullRequestId, p.pullRequestName, p.authorId, p.status,
        (prReviewerRows { db with reviewers := db.reviewers.map (fun (r : RevRow) =>
          if r.prId == prID && r.reviewerId == oldUserID then
            { r with reviewerId := (pickRandom permGen
              (reassignCandidates db pr oldUserID oldUser) 1).headD "" }
          else r) } prID).map (·.reviewerId), some p.createdAt, p.mergedAt⟩,
      (pickRandom permGen (reassignCandidates db pr oldUserID oldUser) 1).headD "",
      { db with reviewers := db.reviewers.map (fun (r : RevRow) =>
          if r.prId == prID && r.reviewerId == oldUserID then
            { r with reviewerId := (pickRandom permGen
              (reassignCandidates db pr oldUserID oldUser) 1).headD "" }
          else r) }, ?_, hnew⟩
    unfold Service.reassignReviewer
    rw [hload]
    show (if pr.status = PRStatus.MERGED then _ else _) = _
    rw [if_neg (by simp [hopen])]
    show (if ¬ pr.assignedReviewers.contains oldUserID then _ else _) = _
    rw [if_neg (by simp [hass])]
    rw [hgetold]
    show (if (reassignCandidates db pr oldUserID oldUser).length = 0 then _ else _) = _
    rw [if_neg (by rw [List.length_eq_zero]; exact hne)]
    show (match Repo.replaceReviewer db prID oldUserID
        ((pickRandom permGen (reassignCandidates db pr oldUserID oldUser) 1).headD "") with
      | Except.error RepoError.reviewerNotFound =>
          Except.error (SvcErr.svc ErrorCode.NOTASSIGNED
            "reviewer is not assigned to this PR")
      | Except.error e => Except.error (SvcErr.raw e)
      | Except.ok db2 =>
          match Repo.getPullRequest db2 prID with
          | Except.error e => Except.error (SvcErr.raw e)
          | Except.ok updated => Except.ok (updated,
              (pickRandom permGen (reassignCandidates db pr oldUserID oldUser) 1).headD "",
              db2)) = _
    rw [hrep]
    show (match loadPullRequestTx
        { db with reviewers := db.reviewers.map (fun (r : RevRow) =>
          if r.prId == prID && r.reviewerId == oldUserID then
            { r with reviewerId := (pickRandom permGen
              (reassignCandidates db pr oldUserID oldUser) 1).headD "" }
          else r) } prID with
      | Except.error e => Except.error (SvcErr.raw e)
      | Except.ok updated => Except.ok (updated,
          (pickRandom permGen (reassignCandidates db pr oldUserID oldUser) 1).headD "",
          { db with reviewers := db.reviewers.map (fun (r : RevRow) =>
            if r.prId == prID && r.reviewerId == oldUserID then
              { r with reviewerId := (pickRandom permGen
                (reassignCandidates db pr oldUserID oldUser) 1).headD "" }
            else r) })) = _
    rw [hload3]

/-- C3 witness: creating a PR in the four-member team picks exactly two
distinct reviewers, neither of them the author "a". -/
theorem C3_create_pr_reviewer_selection_witness :
    ∃ pr db2, Service.createPullRequest dbNoPR permId "prX" "Feature" "a" =
        .ok (pr, db2) ∧
      pr.assignedReviewers.length =
        min ((Repo.listActiveUsersInTeam dbNoPR "t").filter
          (fun u => u.userId != "a")).length 2 ∧
      "a" ∉ pr.assignedReviewers ∧
      pr.assignedReviewers.Nodup ∧
      ((Repo.listActiveUsersInTeam dbNoPR "t").filter (fun u => u.userId != "a") = [] →
        pr.assignedReviewers = []) :=
  C3_create_pr_reviewer_selection dbNoPR permId "prX" "Feature" "a"
    ⟨"a", "Alice", "t", true⟩ (fun _ => List.Perm.refl _) (by decide) rfl rfl (by decide)

/-- C4 witness: in `dbOpen`, reassigning "u2" (assigned, PR open) succeeds
and the replacement comes from the candidate pool (which is exactly
["u4"]). -/
theorem C4_reassign_candidate_pool_witness :
    ∃ pr2 newID db2,
      Service.reassignReviewer dbOpen permId "pr1" "u2" = .ok (pr2, newID, db2) ∧
      newID ∈ reassignCandidates dbOpen prOpen "u2" ⟨"u2", "Bob", "t", true⟩ :=
  (C4_reassign_candidate_pool dbOpen permId "pr1" "u2" prOpen ⟨"u2", "Bob", "t", true⟩
    (fun _ => List.Perm.refl _) (by decide) rfl (by decide) rfl).2.2 (by decide)
